import Mathlib

/-!
Verification of the AgentLint core subsystems: the structural similarity
detector, the AST parse cache, the parallel analysis pipeline, and the
cross-file call-graph builder / orphan detector.  Each definition is a
shallow embedding of the corresponding Go function; Go maps become
association lists with replace-or-append update, `time.Time` and
`time.Duration` become integers (nanoseconds), and `float64` scores become
rationals (all scores arising here are small exact fractions).
-/

namespace AgentLint

/-! ### Similarity detector (SimilarityAnalyzer)

The analyzer stores, per function, the token stream joined with single
spaces (`strings.Join(tokens, " ")`) and `calculateSimilarity` re-splits the
stored strings with `strings.Fields`. -/

/-- Model of `strings.Fields`: split on runs of whitespace, dropping empty
substrings.  `acc` holds the characters of the current field in reverse. -/
def fieldsCore : List Char → List Char → List String
  | acc, [] => if acc.isEmpty then [] else [⟨acc.reverse⟩]
  | acc, c :: cs =>
    if c.isWhitespace then
      if acc.isEmpty then fieldsCore [] cs
      else ⟨acc.reverse⟩ :: fieldsCore [] cs
    else fieldsCore (c :: acc) cs

def fields (s : String) : List String := fieldsCore [] s.data

/-- The nested matching loop of `calculateSimilarity`: for each token of
`tokens1`, the inner loop over `tokens2` breaks at the first equal token, so
each element of `tokens1` contributes at most once. -/
def matchCount (tokens1 tokens2 : List String) : Nat :=
  tokens1.countP (fun t1 => tokens2.contains t1)

/-- Embedding of `SimilarityAnalyzer.calculateSimilarity`, after looking the two bodies up
in `funcBodies`.  The Go function returns a `float64`; every value it can
produce is a ratio of small integers, modelled exactly in `ℚ`. -/
def calculateSimilarity (body1 body2 : String) : ℚ :=
  if body1.length = 0 || body2.length = 0 then 0
  else
    let tokens1 := fields body1
    let tokens2 := fields body2
    if tokens1.isEmpty || tokens2.isEmpty then 0
    else
      let smaller := min tokens1.length tokens2.length
      if smaller = 0 then 0
      else (matchCount tokens1 tokens2 : ℚ) / (smaller : ℚ)

/-- Model of `strings.HasPrefix(s, pre)`, computed on the character lists. -/
def strHasPrefix (s pre : String) : Bool := pre.data.isPrefixOf s.data

/-- Model of `strings.HasSuffix(s, suf)`, computed on the character lists. -/
def strHasSuffix (s suf : String) : Bool := suf.data.isSuffixOf s.data

/-- Embedding of `isIgnoredFunctionName` from the similarity analyzer: `strings.HasPrefix`
is applied to all five entries, including `init` and `main`. -/
def isIgnoredFunctionName (name : String) : Bool :=
  ["init", "main", "Test", "Benchmark", "Example"].any
    (fun pre => strHasPrefix name pre)

/-! ### Association-list model of Go maps -/

def lookupAssoc {α : Type} : List (String × α) → String → Option α
  | [], _ => none
  | (k0, v0) :: rest, k => if k0 = k then some v0 else lookupAssoc rest k

/-- Go map assignment `m[k] = v`: replace the existing binding or append. -/
def updateAssoc {α : Type} : List (String × α) → String → α → List (String × α)
  | [], k, v => [(k, v)]
  | (k0, v0) :: rest, k, v =>
    if k0 = k then (k, v) :: rest else (k0, v0) :: updateAssoc rest k v

/-- Go map delete. -/
def eraseAssoc {α : Type} : List (String × α) → String → List (String × α)
  | [], _ => []
  | (k0, v0) :: rest, k =>
    if k0 = k then rest else (k0, v0) :: eraseAssoc rest k

/-! ### AST parse cache (ASTCache)

`time.Time` and `time.Duration` are modelled as integer nanosecond counts;
the cached artifact (`*ast.File` together with its `*token.FileSet`) is an
abstract type `α`.  The on-disk state is a partial map from path to
modification time (`none` models an `os.Stat` error). -/

structure CachedFile (α : Type) where
  file : α
  modTime : Int
  filePath : String
deriving DecidableEq

structure ASTCache (α : Type) where
  cache : List (String × CachedFile α)
  maxAge : Int
deriving DecidableEq

/-- The duration `5 * time.Minute` in nanoseconds. -/
def fiveMinutes : Int := 300000000000

/-- Embedding of `NewASTCache`: a zero max age selects the 5-minute default. -/
def newASTCache (α : Type) (maxAge : Int) : ASTCache α :=
  { cache := [], maxAge := if maxAge = 0 then fiveMinutes else maxAge }

/-- Embedding of `ASTCache.Get` at current time `now`: a present entry is expired (and
deleted) when `time.Since(cached.modTime) > c.maxAge`, i.e. when
`now - modTime > maxAge`; the stored modification time is the on-disk
mtime recorded by `Set`, not the insertion time.  Returns the artifact, the
`found` flag, and the possibly-updated cache. -/
def ASTCache.get {α : Type} (c : ASTCache α) (now : Int) (filePath : String) :
    Option α × Bool × ASTCache α :=
  match lookupAssoc c.cache filePath with
  | none => (none, false, c)
  | some cached =>
    if now - cached.modTime > c.maxAge then
      (none, false, { c with cache := eraseAssoc c.cache filePath })
    else
      (some cached.file, true, c)

/-- Embedding of `ASTCache.Set`: stats the file (`fs` maps a path to its on-disk mtime,
`none` on stat error, in which case `Set` stores nothing) and stores the
artifact together with that modification time. -/
def ASTCache.set {α : Type} (c : ASTCache α) (fs : String → Option Int)
    (filePath : String) (file : α) : ASTCache α :=
  match fs filePath with
  | none => c
  | some mtime =>
    { c with cache := updateAssoc c.cache filePath ⟨file, mtime, filePath⟩ }

/-! ### Parallel analysis pipeline (ParallelAnalyzer)

`AnalyzeFiles` enqueues one job per path; each worker computes
`analyzer.Analyze` on its job and sends a `{results, err}` pair on the
result channel.  The channel delivery order depends on scheduling, so a run
is modelled by the order in which jobs were processed: an arbitrary
permutation `arrival` of the path list.  The drain loop of the caller is
`drainResults`. -/

structure AnalyzeResult (ρ ε : Type) where
  results : List ρ
  err : Option ε

/-- The worker body: run the per-file analyzer and package the pair. -/
def runAnalyzer {ρ ε : Type} (analyze : String → List ρ × Option ε)
    (filePath : String) : AnalyzeResult ρ ε :=
  { results := (analyze filePath).1, err := (analyze filePath).2 }

/-- The drain loop of the caller over the result channel: entries with a non-nil
error are skipped, the rest are appended in arrival order. -/
def drainResults {ρ ε : Type} (arrivals : List (AnalyzeResult ρ ε)) : List ρ :=
  arrivals.foldl (fun acc r => if r.err.isSome then acc else acc ++ r.results) []

/-- One run of `AnalyzeFiles` whose jobs were completed in order `arrival`. -/
def analyzeFilesRun {ρ ε : Type} (analyze : String → List ρ × Option ε)
    (arrival : List String) : List ρ :=
  drainResults (arrival.map (runAnalyzer analyze))

/-! ### Go AST model

The two directory analyzers traverse the `go/ast` tree with `ast.Inspect`
(pre-order; descending into all children unless the visitor returns false).
Only the node kinds that either visitor matches on are distinguished; every
other statement/expression kind only contributes its children to the
traversal, so each such construct carries its child nodes as one list (the
traversal order of `ast.Inspect`).  An identifier carries the flag
`Obj != nil && Obj.Kind == ast.Fun`, which the resolver of the parser sets for
identifiers resolving to a function declared in the same file. -/

mutual
inductive GoExpr where
| ident : String → Bool → GoExpr
| selector : GoExpr → String → GoExpr
| call : GoExpr → GoExprList → GoExpr
| funcLit : GoExprList → GoExpr
| ifStmt : GoExprList → GoExpr
| forStmt : GoExprList → GoExpr
| rangeStmt : GoExprList → GoExpr
| switchStmt : GoExprList → GoExpr
| typeSwitchStmt : GoExprList → GoExpr
| selectStmt : GoExprList → GoExpr
| returnStmt : GoExprList → GoExpr
| branchStmt : GoExprList → GoExpr
| assignStmt : GoExprList → GoExpr
| binaryExpr : GoExprList → GoExpr
| unaryExpr : GoExprList → GoExpr
| basicLit : GoExpr
inductive GoExprList where
| nil : GoExprList
| cons : GoExpr → GoExprList → GoExprList
end

/-- A `FuncDecl` as both analyzers see it: name, receiver type name as
computed by `getReceiverTypeName` (empty for a free function or an
unrecognised receiver shape), declaration line, and body (`none` for a
body-less declaration). -/
structure FuncDecl where
  name : String
  recvType : String
  line : Nat
  body : Option GoExprList

/-- A parsed file: package name and its top-level function declarations in
source order (`FuncDecl` nodes never nest in Go). -/
structure GoFile where
  pkgName : String
  decls : List FuncDecl

/-! ### Similarity detector: token streams (getNormalizedBody)

`getNormalizedBody` appends one coarse token per matched node kind during
the same pre-order `ast.Inspect` walk (nested `FuncLit` bodies are visited
too; only `FuncDecl`, which cannot occur inside a body, is skipped). -/

mutual
def exprTokens : GoExpr → List String
| .ident _ _ => []
| .selector x _ => exprTokens x
| .call fn args => "CALL" :: (exprTokens fn ++ exprListTokens args)
| .funcLit body => exprListTokens body
| .ifStmt cs => "IF" :: exprListTokens cs
| .forStmt cs => "FOR" :: exprListTokens cs
| .rangeStmt cs => "RANGE" :: exprListTokens cs
| .switchStmt cs => "SWITCH" :: exprListTokens cs
| .typeSwitchStmt cs => "TYPE_SWITCH" :: exprListTokens cs
| .selectStmt cs => "SELECT" :: exprListTokens cs
| .returnStmt cs => "RETURN" :: exprListTokens cs
| .branchStmt cs => "BREAK" :: exprListTokens cs
| .assignStmt cs => "ASSIGN" :: exprListTokens cs
| .binaryExpr cs => "EXPR" :: exprListTokens cs
| .unaryExpr cs => "UNARY" :: exprListTokens cs
| .basicLit => []
def exprListTokens : GoExprList → List String
| .nil => []
| .cons e es => exprTokens e ++ exprListTokens es
end

/-- Embedding of `getNormalizedBody`, returning `strings.Join(tokens, " ")`. -/
def getNormalizedBody (body : GoExprList) : String :=
  String.intercalate " " (exprListTokens body)

/-- One `FuncDecl` step of the `analyzeFile` visitor of the similarity analyzer:
declarations with no body or an ignored name are skipped, otherwise the
normalized body is stored under the key `filePath + ":" + funcName`. -/
def simVisitDecl (filePath : String) (funcBodies : List (String × String))
    (d : FuncDecl) : List (String × String) :=
  match d.body with
  | none => funcBodies
  | some b =>
    if isIgnoredFunctionName d.name then funcBodies
    else updateAssoc funcBodies (filePath ++ ":" ++ d.name) (getNormalizedBody b)

/-- Embedding of `SimilarityAnalyzer.analyzeFile`, restricted to the `funcBodies` map it
populates (the `funcSigs` map is write-only in the source). -/
def simAnalyzeFile (funcBodies : List (String × String)) (filePath : String)
    (f : GoFile) : List (String × String) :=
  f.decls.foldl (simVisitDecl filePath) funcBodies

/-! ### Cross-file analyzer (CrossFileAnalyzer)

State: `functions` (file → name → info), `methods` (receiver type → name →
info), `calls` and `methodCalls` (keyed by the string `file + ":" + caller`),
and the `funcReferences` set. -/

structure FunctionInfo where
  name : String
  file : String
  exported : Bool
  isMain : Bool
  isTest : Bool
  isInit : Bool
  isMethod : Bool
  receiver : String
  line : Nat
  pkg : String
deriving DecidableEq

structure AnalyzerState where
  functions : List (String × List (String × FunctionInfo))
  methods : List (String × List (String × FunctionInfo))
  calls : List (String × List String)
  methodCalls : List (String × List String)
  funcReferences : List String
deriving DecidableEq

/-- The state built by `NewCrossFileAnalyzer`: all maps empty. -/
def emptyAnalyzerState : AnalyzerState :=
  { functions := [], methods := [], calls := [], methodCalls := [],
    funcReferences := [] }

/-- The `ignoredPrefixes` list set by `NewCrossFileAnalyzer`. -/
def crossFileIgnoredKinds : List String := ["Benchmark", "Example", "Test"]

/-- Model of `ast.IsExported` for the ASCII identifiers considered here: the first
character is upper-case. -/
def isExportedName (name : String) : Bool :=
  match name.data with
  | [] => false
  | c :: _ => c.isUpper

/-- Update of a nested map `m[k1][k2] = v`, with the inner map created when
absent (in the source the `functions` inner map is pre-created by
`analyzeFile` and the `methods` inner map is created lazily by
`registerFunction`; both amount to this). -/
def updateAssoc2 (m : List (String × List (String × FunctionInfo)))
    (k1 k2 : String) (v : FunctionInfo) :
    List (String × List (String × FunctionInfo)) :=
  updateAssoc m k1 (updateAssoc ((lookupAssoc m k1).getD []) k2 v)

/-- Embedding of `registerFunction`: build the `FunctionInfo` and file it under either the
methods map (when a receiver type is present) or the functions map. -/
def registerFunction (st : AnalyzerState) (filePath pkgName : String)
    (d : FuncDecl) : AnalyzerState :=
  let receiverType := d.recvType
  let isMethod := receiverType ≠ ""
  let fi : FunctionInfo :=
    { name := d.name
      file := filePath
      exported := isExportedName d.name
      isMain := d.name = "main"
      isTest := strHasPrefix d.name "Test" || strHasSuffix d.name "Test"
      isInit := d.name = "init"
      isMethod := isMethod
      receiver := receiverType
      line := d.line
      pkg := pkgName }
  if isMethod then
    { st with methods := updateAssoc2 st.methods receiverType d.name fi }
  else
    { st with functions := updateAssoc2 st.functions filePath d.name fi }

/-- Embedding of `collectDeclarations`: register every `FuncDecl` of the file. -/
def collectDeclarations (st : AnalyzerState) (filePath pkgName : String)
    (decls : List FuncDecl) : AnalyzerState :=
  decls.foldl (fun s d => registerFunction s filePath pkgName d) st

/-- Embedding of `recordCall`: append the callee under the key `filePath + ":" + caller`. -/
def recordCall (st : AnalyzerState) (filePath caller callee : String) :
    AnalyzerState :=
  let key := filePath ++ ":" ++ caller
  { st with calls :=
      updateAssoc st.calls key ((lookupAssoc st.calls key).getD [] ++ [callee]) }

/-- Embedding of `recordMethodCall`: the same, into the `methodCalls` map. -/
def recordMethodCall (st : AnalyzerState) (filePath caller methodName : String) :
    AnalyzerState :=
  let key := filePath ++ ":" ++ caller
  let entry := (lookupAssoc st.methodCalls key).getD [] ++ [methodName]
  { st with methodCalls := updateAssoc st.methodCalls key entry }

/-- The assignment `a.funcReferences[name] = true` (set insertion). -/
def addFuncReference (st : AnalyzerState) (name : String) : AnalyzerState :=
  if st.funcReferences.contains name then st
  else { st with funcReferences := name :: st.funcReferences }

/-- The argument loop at the end of `recordCallExpr`: every bare-identifier
argument is added to `funcReferences`. -/
def recordArgReferences (st : AnalyzerState) : GoExprList → AnalyzerState
  | .nil => st
  | .cons (.ident nm _) rest => recordArgReferences (addFuncReference st nm) rest
  | .cons _ rest => recordArgReferences st rest

mutual
/-- The `ast.Inspect` visitor of `collectCallsFromNode`, applied at one node
and (since it always returns `true`) recursively at all its children in
pre-order: a `CallExpr` is passed to `recordCallExpr`; an identifier whose
object is a function is added to `funcReferences`; the trailing name of
every `SelectorExpr` is added to `funcReferences`. -/
def collectCallsFromExpr (filePath callerName : String) (st : AnalyzerState) :
    GoExpr → AnalyzerState
  | .call fn args =>
    let st1 := recordCallExpr filePath callerName st fn args
    let st2 := collectCallsFromExpr filePath callerName st1 fn
    collectCallsFromList filePath callerName st2 args
  | .ident nm isFunObj =>
    if isFunObj then addFuncReference st nm else st
  | .selector x sel =>
    collectCallsFromExpr filePath callerName (addFuncReference st sel) x
  | .funcLit body => collectCallsFromList filePath callerName st body
  | .ifStmt cs => collectCallsFromList filePath callerName st cs
  | .forStmt cs => collectCallsFromList filePath callerName st cs
  | .rangeStmt cs => collectCallsFromList filePath callerName st cs
  | .switchStmt cs => collectCallsFromList filePath callerName st cs
  | .typeSwitchStmt cs => collectCallsFromList filePath callerName st cs
  | .selectStmt cs => collectCallsFromList filePath callerName st cs
  | .returnStmt cs => collectCallsFromList filePath callerName st cs
  | .branchStmt cs => collectCallsFromList filePath callerName st cs
  | .assignStmt cs => collectCallsFromList filePath callerName st cs
  | .binaryExpr cs => collectCallsFromList filePath callerName st cs
  | .unaryExpr cs => collectCallsFromList filePath callerName st cs
  | .basicLit => st

/-- Embedding of `recordCallExpr` on a call with function part `fn` and arguments `args`:
a bare-identifier target records a direct call; a selector target records
both a method call and a direct call under the trailing name; a
function-literal target is traversed recursively under the same caller;
finally all bare-identifier arguments are added to `funcReferences`. -/
def recordCallExpr (filePath callerName : String) (st : AnalyzerState)
    (fn : GoExpr) (args : GoExprList) : AnalyzerState :=
  let st1 :=
    match fn with
    | .ident nm _ => recordCall st filePath callerName nm
    | .selector _ sel =>
      recordCall (recordMethodCall st filePath callerName sel)
        filePath callerName sel
    | .funcLit body => collectCallsFromList filePath callerName st body
    | _ => st
  recordArgReferences st1 args

/-- Visitor applied along a list of sibling nodes. -/
def collectCallsFromList (filePath callerName : String) (st : AnalyzerState) :
    GoExprList → AnalyzerState
  | .nil => st
  | .cons e es =>
    collectCallsFromList filePath callerName
      (collectCallsFromExpr filePath callerName st e) es
end

/-- Embedding of `collectCalls`: for every declaration with a body, collect calls and
references from the body under the name of the declaration. -/
def collectCalls (st : AnalyzerState) (filePath : String)
    (decls : List FuncDecl) : AnalyzerState :=
  decls.foldl
    (fun s d =>
      match d.body with
      | none => s
      | some b => collectCallsFromList filePath d.name s b)
    st

/-- Embedding of `analyzeFile` (after a successful parse): reset the file entry in the
functions map, then collect declarations and calls. -/
def analyzeFile (st : AnalyzerState) (filePath : String) (f : GoFile) :
    AnalyzerState :=
  let st1 := { st with functions := updateAssoc st.functions filePath [] }
  let st2 := collectDeclarations st1 filePath f.pkgName f.decls
  collectCalls st2 filePath f.decls

/-! ### Orphan detection (FindUnusedFunctions) -/

/-- Embedding of the `core.Result` record. -/
structure Result where
  ruleID : String
  ruleName : String
  category : String
  severity : String
  filePath : String
  line : Nat
  column : Nat
  message : String
  suggestion : String
deriving DecidableEq

/-- Lookup in the `calls` / `methodCalls` maps; a missing key is the empty
list (ranging over a nil Go slice). -/
def lookupCalls (m : List (String × List String)) (k : String) : List String :=
  (lookupAssoc m k).getD []

/-- All `FunctionInfo` values of a two-level map, in iteration order of the
association lists (Go map iteration order is unspecified; every property
proved below is order-insensitive). -/
def allInfos (m : List (String × List (String × FunctionInfo))) :
    List FunctionInfo :=
  m.flatMap (fun kv => kv.2.map Prod.snd)

/-- All entries `(outer key, inner key, info)` of a two-level map. -/
def mapEntries (m : List (String × List (String × FunctionInfo))) :
    List (String × String × FunctionInfo) :=
  m.flatMap (fun kv => kv.2.map (fun nv => (kv.1, nv.1, nv.2)))

/-- Embedding of `isIgnoredFunction`: main/init, test-like names, names with an ignored
name convention, and exported functions are never flagged. -/
def isIgnoredFunction (fi : FunctionInfo) : Bool :=
  if fi.isMain || fi.isInit then true
  else if fi.isTest then true
  else if crossFileIgnoredKinds.any (fun pre => strHasPrefix fi.name pre) then true
  else if fi.exported then true
  else false

/-- Embedding of `isCalled`: a free function is used when it is main/init/test-like, when
its name is in `funcReferences`, or when some declared function or method
(the candidate itself included) has a direct-call edge to its name. -/
def isCalled (st : AnalyzerState) (fi : FunctionInfo) : Bool :=
  if fi.isMain || fi.isInit || fi.isTest then true
  else if st.funcReferences.contains fi.name then true
  else if (allInfos st.functions).any
      (fun caller =>
        (lookupCalls st.calls (caller.file ++ ":" ++ caller.name)).contains
          fi.name) then true
  else if (allInfos st.methods).any
      (fun caller =>
        (lookupCalls st.calls (caller.file ++ ":" ++ caller.name)).contains
          fi.name) then true
  else false

/-- Embedding of `isMethodCalled`: as `isCalled`, but a method-call edge or a direct-call
edge from any caller counts. -/
def isMethodCalled (st : AnalyzerState) (fi : FunctionInfo) : Bool :=
  if fi.isMain || fi.isInit || fi.isTest then true
  else if st.funcReferences.contains fi.name then true
  else if (allInfos st.functions).any
      (fun caller =>
        (lookupCalls st.methodCalls (caller.file ++ ":" ++ caller.name)).contains
            fi.name
          || (lookupCalls st.calls (caller.file ++ ":" ++ caller.name)).contains
            fi.name) then true
  else if (allInfos st.methods).any
      (fun caller =>
        (lookupCalls st.methodCalls (caller.file ++ ":" ++ caller.name)).contains
            fi.name
          || (lookupCalls st.calls (caller.file ++ ":" ++ caller.name)).contains
            fi.name) then true
  else false

/-- Embedding of `buildUnusedFunctionResult`. -/
def buildUnusedFunctionResult (filePath name : String) (fi : FunctionInfo) :
    Result :=
  { ruleID := "cross-file-unused-function"
    ruleName := "Cross-File Unused Function"
    category := "orphaned"
    severity := "warning"
    filePath := filePath
    line := fi.line
    column := 0
    message := "Function \x27" ++ name ++ "\x27 is not called anywhere in the project"
    suggestion := "Review if this function is needed or if it should be exported/called" }

/-- Embedding of `buildUnusedMethodResult`. -/
def buildUnusedMethodResult (name : String) (fi : FunctionInfo) : Result :=
  { ruleID := "cross-file-unused-method"
    ruleName := "Cross-File Unused Method"
    category := "orphaned"
    severity := "warning"
    filePath := fi.file
    line := fi.line
    column := 0
    message := "Method \x27" ++ name ++ "\x27 on receiver \x27" ++ fi.receiver
      ++ "\x27 is not called anywhere in the project"
    suggestion := "Review if this method is needed or if it implements an interface" }

/-- The entries of the functions map that `findUnusedRegularFunctions`
reports: neither ignored nor called. -/
def unusedFunctionEntries (st : AnalyzerState) :
    List (String × String × FunctionInfo) :=
  (mapEntries st.functions).filter
    (fun e => !isIgnoredFunction e.2.2 && !isCalled st e.2.2)

/-- The entries of the methods map that `findUnusedMethods` reports. -/
def unusedMethodEntries (st : AnalyzerState) :
    List (String × String × FunctionInfo) :=
  (mapEntries st.methods).filter
    (fun e => !isIgnoredFunction e.2.2 && !isMethodCalled st e.2.2)

/-- Embedding of `findUnusedRegularFunctions`. -/
def findUnusedRegularFunctions (st : AnalyzerState) : List Result :=
  (unusedFunctionEntries st).map (fun e => buildUnusedFunctionResult e.1 e.2.1 e.2.2)

/-- Embedding of `findUnusedMethods`. -/
def findUnusedMethods (st : AnalyzerState) : List Result :=
  (unusedMethodEntries st).map (fun e => buildUnusedMethodResult e.2.1 e.2.2)

/-- Embedding of `FindUnusedFunctions`: regular functions first, then methods. -/
def findUnusedFunctions (st : AnalyzerState) : List Result :=
  findUnusedRegularFunctions st ++ findUnusedMethods st

/-! ### Concrete inputs -/

/-- The statement `_ = "some string"`: an `AssignStmt` whose children are the
blank identifier (no object) and a string literal. -/
def discardAssign : GoExpr :=
  .assignStmt (.cons (.ident "_" false) (.cons .basicLit .nil))

/-- The orphan-detection scenario: one file `main.go` containing
`func main() { usedFunction() }`, `func usedFunction() { _ = "I am used" }`,
`func orphanedFunction() { _ = "Nobody calls me" }` and
`func anotherOrphan() { _ = "I am also unused" }`.  The call target
`usedFunction` resolves to the same-file declaration, so its identifier
carries a function object. -/
def orphanTestFile : GoFile :=
  { pkgName := "main"
    decls :=
      [ { name := "main", recvType := "", line := 3
          body := some (.cons (.call (.ident "usedFunction" true) .nil) .nil) }
      , { name := "usedFunction", recvType := "", line := 4
          body := some (.cons discardAssign .nil) }
      , { name := "orphanedFunction", recvType := "", line := 5
          body := some (.cons discardAssign .nil) }
      , { name := "anotherOrphan", recvType := "", line := 6
          body := some (.cons discardAssign .nil) } ] }

/-- The analyzer state after `AnalyzeDirectory` over the orphan scenario. -/
def orphanTestState : AnalyzerState :=
  analyzeFile emptyAnalyzerState "main.go" orphanTestFile

/-- A file whose single function `g` contains one selector call `x.Y()`; the
name `Y` occurs in the file only as the call target of that selector call. -/
def selectorCallFile : GoFile :=
  { pkgName := "main"
    decls :=
      [ { name := "g", recvType := "", line := 3
          body := some (.cons
            (.call (.selector (.ident "x" false) "Y") .nil) .nil) } ] }

def selectorCallState : AnalyzerState :=
  analyzeFile emptyAnalyzerState "a.go" selectorCallFile

/-! ### Reference sources (C3)

`exprRefSources` lists the names the visitor adds to `funcReferences` from
identifier and selector nodes: the trailing name of every selector and the
name of every identifier carrying a function object — in every position,
call targets included, because `ast.Inspect` descends into the `Fun` child
of each `CallExpr`. -/

mutual
def exprRefSources : GoExpr → List String
| .ident nm isFunObj => if isFunObj then [nm] else []
| .selector x sel => sel :: exprRefSources x
| .call fn args => exprRefSources fn ++ exprListRefSources args
| .funcLit b => exprListRefSources b
| .ifStmt cs => exprListRefSources cs
| .forStmt cs => exprListRefSources cs
| .rangeStmt cs => exprListRefSources cs
| .switchStmt cs => exprListRefSources cs
| .typeSwitchStmt cs => exprListRefSources cs
| .selectStmt cs => exprListRefSources cs
| .returnStmt cs => exprListRefSources cs
| .branchStmt cs => exprListRefSources cs
| .assignStmt cs => exprListRefSources cs
| .binaryExpr cs => exprListRefSources cs
| .unaryExpr cs => exprListRefSources cs
| .basicLit => []
def exprListRefSources : GoExprList → List String
| .nil => []
| .cons e es => exprRefSources e ++ exprListRefSources es
end

/-! ### Concrete states for the witnesses -/

/-- Info registered for `orphanedFunction` in the orphan scenario. -/
def orphanFi : FunctionInfo :=
  { name := "orphanedFunction", file := "main.go", exported := false
    isMain := false, isTest := false, isInit := false, isMethod := false
    receiver := "", line := 5, pkg := "main" }

/-- Info of an unexported callback `cb` referenced but never called. -/
def cbFi : FunctionInfo :=
  { name := "cb", file := "a.go", exported := false
    isMain := false, isTest := false, isInit := false, isMethod := false
    receiver := "", line := 2, pkg := "main" }

/-- A state in which `cb` is declared, has no call edge, and appears in the
reference set. -/
def cbState : AnalyzerState :=
  { functions := [("a.go", [("cb", cbFi)])], methods := [], calls := []
    methodCalls := [], funcReferences := ["cb"] }

/-- Info of an unexported function `helper` whose only call edge is the
self call. -/
def selfRecFi : FunctionInfo :=
  { name := "helper", file := "a.go", exported := false
    isMain := false, isTest := false, isInit := false, isMethod := false
    receiver := "", line := 1, pkg := "main" }

/-- A state in which `helper` is declared and calls only itself. -/
def selfRecState : AnalyzerState :=
  { functions := [("a.go", [("helper", selfRecFi)])], methods := []
    calls := [("a.go:helper", ["helper"])], methodCalls := []
    funcReferences := [] }

/-- A two-file analyzer: file `a` succeeds with two results, file `b`
fails. -/
def witnessAnalyzer : String → List Nat × Option Unit :=
  fun p => if p = "a" then ([1, 2], none) else ([], some ())

/-! ### Helper lemmas -/

theorem lookupAssoc_updateAssoc {α : Type} (m : List (String × α)) (k : String)
    (v : α) (k' : String) :
    lookupAssoc (updateAssoc m k v) k' =
      if k = k' then some v else lookupAssoc m k' := by
  induction m with
  | nil => simp [updateAssoc, lookupAssoc]
  | cons hd tl ih =>
    obtain ⟨k0, v0⟩ := hd
    by_cases h0 : k0 = k
    · subst h0
      by_cases h1 : k0 = k'
      · subst h1
        simp [updateAssoc, lookupAssoc]
      · simp [updateAssoc, lookupAssoc, h1]
    · by_cases h1 : k0 = k'
      · subst h1
        have hk : ¬k = k0 := fun h => h0 h.symm
        simp [updateAssoc, lookupAssoc, h0, hk]
      · simp [updateAssoc, lookupAssoc, h0, h1, ih]

/-! ### Claim theorems -/

/-- Claim C1 (code bug): the claim states that a `Get` immediately after a
successful `Set` hits whenever the elapsed time since insertion is within
the max age, regardless of the on-disk modification time.  The code instead
compares `now - storedModTime` where `storedModTime` is the on-disk
mtime: with the default 5-minute max age, a file whose mtime is 10 minutes
in the past misses immediately after being cached (elapsed insertion time
zero). -/
theorem cacheGetAfterSetMissesOnOldMtime :
    ((((newASTCache Nat 0).set (fun _ => some 0) "a.go" 42).get
        600000000000 "a.go").2.1 = false)
    ∧ (((newASTCache Nat 0).set (fun _ => some 0) "a.go" 42).cache =
        [("a.go", ⟨42, 0, "a.go"⟩)]) := by
  constructor
  · rfl
  · rfl

/-- Claim C4: on the project `main() { usedFunction() }` with
`orphanedFunction` and `anotherOrphan` never called, `AnalyzeDirectory`
followed by `FindUnusedFunctions` yields exactly two orphan findings whose
messages are the two literal strings. -/
theorem orphanScenarioYieldsTwoFindings :
    (findUnusedFunctions orphanTestState).length = 2
    ∧ "Function \x27orphanedFunction\x27 is not called anywhere in the project"
        ∈ (findUnusedFunctions orphanTestState).map Result.message
    ∧ "Function \x27anotherOrphan\x27 is not called anywhere in the project"
        ∈ (findUnusedFunctions orphanTestState).map Result.message := by
  refine ⟨?_, ?_, ?_⟩ <;> decide

/-- Claim C9: the similarity score exceeds 1.0 on stored bodies whose token
streams are non-empty with `|A| > |B|` and a repeated token in `A`:
`matchedTokenCount` ranges over the tokens of `A` while the denominator is
`min(|A|, |B|)`. -/
theorem similarityScoreExceedsOne :
    ∃ body1 body2 : String,
      fields body1 ≠ [] ∧ fields body2 ≠ []
      ∧ (fields body2).length < (fields body1).length
      ∧ 1 < calculateSimilarity body1 body2 := by
  refine ⟨"RETURN RETURN", "RETURN", by decide, by decide, by decide, ?_⟩
  have h : calculateSimilarity "RETURN RETURN" "RETURN" =
      ((2 : ℕ) : ℚ) / ((1 : ℕ) : ℚ) := rfl
  rw [h]
  norm_num

/-- A lookup that already succeeds still succeeds after one visitor step of
the similarity analyzer (the map only ever gains or replaces bindings). -/
theorem lookup_simVisitDecl_isSome (filePath : String)
    (funcBodies : List (String × String)) (d : FuncDecl) (k : String)
    (h : (lookupAssoc funcBodies k).isSome) :
    (lookupAssoc (simVisitDecl filePath funcBodies d) k).isSome := by
  unfold simVisitDecl
  cases d.body with
  | none => exact h
  | some b =>
    by_cases hig : isIgnoredFunctionName d.name
    · simpa [hig] using h
    · simp only [hig, Bool.false_eq_true, if_false]
      rw [lookupAssoc_updateAssoc]
      split
      · simp
      · exact h

/-- A lookup that already succeeds still succeeds after folding the visitor
over any remaining declarations. -/
theorem lookup_simFold_isSome (filePath : String) (decls : List FuncDecl) :
    ∀ (funcBodies : List (String × String)) (k : String),
      (lookupAssoc funcBodies k).isSome →
      (lookupAssoc (decls.foldl (simVisitDecl filePath) funcBodies) k).isSome := by
  induction decls with
  | nil => exact fun _ _ h => h
  | cons d rest ih =>
    intro funcBodies k h
    exact ih _ k (lookup_simVisitDecl_isSome filePath funcBodies d k h)

/-- Claim C8 (amended): the similarity analyzer stores a token stream for
every function declaration that has a body and whose name has none of the
five prefixes `init`, `main`, `Test`, `Benchmark`, `Example`
(`isIgnoredFunctionName` applies `strings.HasPrefix` to all five, so names
such as `initialize` and `mainLoop` are excluded too, not eligible as the
original claim stated). -/
theorem eligibleFunctionGetsTokenStream (funcBodies : List (String × String))
    (filePath : String) (f : GoFile) (d : FuncDecl) (b : GoExprList)
    (hd : d ∈ f.decls) (hb : d.body = some b)
    (hn : isIgnoredFunctionName d.name = false) :
    (lookupAssoc (simAnalyzeFile funcBodies filePath f)
      (filePath ++ ":" ++ d.name)).isSome := by
  obtain ⟨pkg, decls⟩ := f
  simp only [simAnalyzeFile] at *
  induction decls generalizing funcBodies with
  | nil => cases hd
  | cons d0 rest ih =>
    simp only [List.foldl_cons]
    rcases List.mem_cons.mp hd with h0 | h0
    · subst h0
      apply lookup_simFold_isSome
      simp only [simVisitDecl, hb, hn, Bool.false_eq_true, if_false]
      rw [lookupAssoc_updateAssoc]
      simp
    · exact ih _ h0

/-- Claim C8, counterexample to the original statement: a function named
`initialize` (which merely begins with `init`) is excluded — its name is
ignored and `analyzeFile` stores no token stream for it. -/
theorem initializeIsExcluded :
    isIgnoredFunctionName "initialize" = true
    ∧ lookupAssoc
        (simAnalyzeFile [] "a.go"
          { pkgName := "main"
            decls := [{ name := "initialize", recvType := "", line := 1
                        body := some (.cons (.returnStmt .nil) .nil) }] })
        "a.go:initialize" = none := by
  constructor
  · decide
  · decide

/-- Witness for `eligibleFunctionGetsTokenStream`: the function `compute`
with a one-return body is eligible and receives a token stream. -/
theorem eligibleFunctionGetsTokenStreamWitness :
    ({ name := "compute", recvType := "", line := 1
       body := some (.cons (.returnStmt .nil) .nil) } : FuncDecl)
      ∈ ({ pkgName := "main"
           decls := [{ name := "compute", recvType := "", line := 1
                       body := some (.cons (.returnStmt .nil) .nil) }] } : GoFile).decls
    ∧ (lookupAssoc
        (simAnalyzeFile [] "a.go"
          { pkgName := "main"
            decls := [{ name := "compute", recvType := "", line := 1
                        body := some (.cons (.returnStmt .nil) .nil) }] })
        ("a.go" ++ ":" ++ "compute")).isSome := by
  refine ⟨List.mem_singleton.mpr rfl, ?_⟩
  exact eligibleFunctionGetsTokenStream [] "a.go" _
    { name := "compute", recvType := "", line := 1
      body := some (.cons (.returnStmt .nil) .nil) }
    (.cons (.returnStmt .nil) .nil) (List.mem_singleton.mpr rfl) rfl (by decide)

/-- For a duplicate-free token stream, the matched-token count is the number
of tokens common to both streams. -/
theorem matchCount_eq_card_inter (l1 l2 : List String) (h1 : l1.Nodup) :
    matchCount l1 l2 = (l1.toFinset ∩ l2.toFinset).card := by
  unfold matchCount
  rw [List.countP_eq_length_filter]
  have hfilter : (l1.filter (fun t1 => l2.contains t1)).Nodup :=
    h1.filter (fun t1 => l2.contains t1)
  rw [← List.toFinset_card_of_nodup hfilter, List.toFinset_filter]
  congr 1
  ext a
  simp [List.elem_iff]

/-- Claim C2 (amended): `calculateSimilarity` is symmetric whenever neither
token stream repeats a token (then both match counts equal the number of
shared tokens, and the denominator `min(|A|, |B|)` is symmetric); with a
repeated token the match count over `A` can differ from the one over `B`
and the score is not symmetric in general. -/
theorem calculateSimilarityCommOfNodup (body1 body2 : String)
    (h1 : (fields body1).Nodup) (h2 : (fields body2).Nodup) :
    calculateSimilarity body1 body2 = calculateSimilarity body2 body1 := by
  unfold calculateSimilarity
  by_cases e1 : body1.length = 0
  · by_cases e2 : body2.length = 0 <;> simp [e1, e2]
  · by_cases e2 : body2.length = 0
    · simp [e1, e2]
    · by_cases tA : (fields body1).isEmpty = true
      · by_cases tB : (fields body2).isEmpty = true <;> simp [e1, e2, tA, tB]
      · by_cases tB : (fields body2).isEmpty = true
        · simp [e1, e2, tA, tB]
        · have hA : fields body1 ≠ [] := by
            intro h
            rw [h] at tA
            exact tA rfl
          have hB : fields body2 ≠ [] := by
            intro h
            rw [h] at tB
            exact tB rfl
          have hminAB :
              ¬min (fields body1).length (fields body2).length = 0 := by
            simp [Nat.min_eq_zero_iff, List.length_eq_zero, hA, hB]
          have hminBA :
              ¬min (fields body2).length (fields body1).length = 0 := by
            simp [Nat.min_eq_zero_iff, List.length_eq_zero, hA, hB]
          simp [e1, e2, tA, tB, hminAB, hminBA]
          rw [matchCount_eq_card_inter _ _ h1, matchCount_eq_card_inter _ _ h2,
            Finset.inter_comm,
            min_comm (((fields body1).length : ℚ)) (((fields body2).length : ℚ))]

/-- Claim C2, counterexample to the original statement: the stored bodies
`RETURN RETURN` and `RETURN` (produced by a two-return body and a one-return
body) score 2 in one direction and 1 in the other, because the matched-token
count ranges over the tokens of the first stream while the denominator is the
minimum length. -/
theorem calculateSimilarityNotSymmetric :
    getNormalizedBody (.cons (.returnStmt .nil) (.cons (.returnStmt .nil) .nil))
        = "RETURN RETURN"
    ∧ getNormalizedBody (.cons (.returnStmt .nil) .nil) = "RETURN"
    ∧ calculateSimilarity "RETURN RETURN" "RETURN"
        ≠ calculateSimilarity "RETURN" "RETURN RETURN" := by
  refine ⟨rfl, rfl, ?_⟩
  have hA : calculateSimilarity "RETURN RETURN" "RETURN" =
      ((2 : ℕ) : ℚ) / ((1 : ℕ) : ℚ) := rfl
  have hB : calculateSimilarity "RETURN" "RETURN RETURN" =
      ((1 : ℕ) : ℚ) / ((1 : ℕ) : ℚ) := rfl
  rw [hA, hB]
  norm_num

/-- Witness for `calculateSimilarityCommOfNodup` on the duplicate-free
streams `IF` and `RETURN IF`. -/
theorem calculateSimilarityCommWitness :
    (fields "IF").Nodup ∧ (fields "RETURN IF").Nodup
    ∧ calculateSimilarity "IF" "RETURN IF"
        = calculateSimilarity "RETURN IF" "IF" :=
  ⟨by decide, by decide,
    calculateSimilarityCommOfNodup "IF" "RETURN IF" (by decide) (by decide)⟩

/-- Lemma: `isIgnoredFunction` checks the exported flag before reaching `false`: a
non-ignored function is necessarily unexported. -/
theorem not_exported_of_not_ignored (fi : FunctionInfo)
    (h : isIgnoredFunction fi = false) : fi.exported = false := by
  unfold isIgnoredFunction at h
  split_ifs at h with h1 h2 h3 h4
  exact Bool.eq_false_iff.mpr h4

/-- A name in `funcReferences` makes `isCalled` true. -/
theorem isCalled_of_references (st : AnalyzerState) (fi : FunctionInfo)
    (href : st.funcReferences.contains fi.name = true) :
    isCalled st fi = true := by
  have hm : fi.name ∈ st.funcReferences := List.elem_iff.mp href
  unfold isCalled
  simp [hm]

/-- A name in `funcReferences` makes `isMethodCalled` true. -/
theorem isMethodCalled_of_references (st : AnalyzerState) (fi : FunctionInfo)
    (href : st.funcReferences.contains fi.name = true) :
    isMethodCalled st fi = true := by
  have hm : fi.name ∈ st.funcReferences := List.elem_iff.mp href
  unfold isMethodCalled
  simp [hm]

/-- An entry of the two-level map contributes its info to `allInfos`. -/
theorem mem_allInfos_of_mem_mapEntries
    (m : List (String × List (String × FunctionInfo))) (fp nm : String)
    (fi : FunctionInfo) (h : (fp, nm, fi) ∈ mapEntries m) :
    fi ∈ allInfos m := by
  simp only [mapEntries, List.mem_flatMap, List.mem_map] at h
  obtain ⟨kv, hkv, nv, hnv, heq⟩ := h
  simp only [allInfos, List.mem_flatMap, List.mem_map]
  refine ⟨kv, hkv, nv, hnv, ?_⟩
  have := congrArg (fun p => p.2.2) heq
  simpa using this

/-- Claim C5: for every analyzer state, no exported function or method entry
survives the orphan filters — `FindUnusedFunctions` never reports an
exported symbol. -/
theorem exportedNeverReported (st : AnalyzerState)
    (e : String × String × FunctionInfo)
    (h : e ∈ unusedFunctionEntries st ∨ e ∈ unusedMethodEntries st) :
    e.2.2.exported = false := by
  rcases h with h | h
  · rw [unusedFunctionEntries, List.mem_filter] at h
    have hc := h.2
    simp only [Bool.and_eq_true, Bool.not_eq_true'] at hc
    exact not_exported_of_not_ignored _ hc.1
  · rw [unusedMethodEntries, List.mem_filter] at h
    have hc := h.2
    simp only [Bool.and_eq_true, Bool.not_eq_true'] at hc
    exact not_exported_of_not_ignored _ hc.1

/-- Witness for `exportedNeverReported` at the reported orphan-scenario
entry. -/
theorem exportedNeverReportedWitness :
    (("main.go", "orphanedFunction", orphanFi)
        ∈ unusedFunctionEntries orphanTestState
      ∨ ("main.go", "orphanedFunction", orphanFi)
        ∈ unusedMethodEntries orphanTestState)
    ∧ orphanFi.exported = false :=
  ⟨Or.inl (by decide),
    exportedNeverReported orphanTestState
      ("main.go", "orphanedFunction", orphanFi) (Or.inl (by decide))⟩

/-- Claim C6: a declared function whose name is in the `funcReferences` set
(e.g. referenced only via `h := f` or passed as a bare call argument), even
with no call edge targeting it, is never among the reported unused-function
entries. -/
theorem referencedFunctionNotReported (st : AnalyzerState) (fp nm : String)
    (fi : FunctionInfo)
    (href : st.funcReferences.contains fi.name = true)
    (hnoedge : ∀ kv ∈ st.calls, fi.name ∉ kv.2) :
    (fp, nm, fi) ∉ unusedFunctionEntries st := by
  intro hmem
  rw [unusedFunctionEntries, List.mem_filter] at hmem
  have hc := hmem.2
  simp only [Bool.and_eq_true, Bool.not_eq_true'] at hc
  have hcalled := isCalled_of_references st fi href
  rw [hc.2] at hcalled
  cases hcalled

/-- Witness for `referencedFunctionNotReported` at the callback state. -/
theorem referencedFunctionNotReportedWitness :
    cbState.funcReferences.contains cbFi.name = true
    ∧ (∀ kv ∈ cbState.calls, cbFi.name ∉ kv.2)
    ∧ ("a.go", "cb", cbFi) ∉ unusedFunctionEntries cbState :=
  ⟨by decide, by decide,
    referencedFunctionNotReported cbState "a.go" "cb" cbFi (by decide) (by decide)⟩

/-- Claim C10: a directly recursive call counts as a use.  For an
unexported, non-ignored free function whose only recorded call edge is the
self edge, `isCalled` finds the candidate itself among the declared callers
and the function is not reported. -/
theorem selfCallCountsAsUse (st : AnalyzerState) (fp nm : String)
    (fi : FunctionInfo)
    (hmem : (fp, nm, fi) ∈ mapEntries st.functions)
    (hexp : fi.exported = false)
    (hig : isIgnoredFunction fi = false)
    (hself : lookupCalls st.calls (fi.file ++ ":" ++ fi.name) = [fi.name])
    (honly : ∀ kv ∈ st.calls, kv.2 ≠ [] → kv.1 = fi.file ++ ":" ++ fi.name) :
    (fp, nm, fi) ∉ unusedFunctionEntries st := by
  intro h
  rw [unusedFunctionEntries, List.mem_filter] at h
  have hx : fi ∈ allInfos st.functions :=
    mem_allInfos_of_mem_mapEntries _ _ _ _ hmem
  have hy : fi.name ∈ lookupCalls st.calls (fi.file ++ ":" ++ fi.name) := by
    rw [hself]
    exact List.mem_singleton.mpr rfl
  have hcalled : isCalled st fi = true := by
    unfold isCalled
    simp only [Bool.if_true_left, Bool.or_eq_true, decide_eq_true_eq]
    simp
    exact Or.inr (Or.inr (Or.inl ⟨fi, hx, hy⟩))
  have hc := h.2
  simp only [Bool.and_eq_true, Bool.not_eq_true'] at hc
  rw [hc.2] at hcalled
  cases hcalled

/-- Witness for `selfCallCountsAsUse` at the self-recursive state. -/
theorem selfCallCountsAsUseWitness :
    ("a.go", "helper", selfRecFi) ∈ mapEntries selfRecState.functions
    ∧ selfRecFi.exported = false
    ∧ isIgnoredFunction selfRecFi = false
    ∧ lookupCalls selfRecState.calls (selfRecFi.file ++ ":" ++ selfRecFi.name)
        = [selfRecFi.name]
    ∧ (∀ kv ∈ selfRecState.calls, kv.2 ≠ [] →
        kv.1 = selfRecFi.file ++ ":" ++ selfRecFi.name)
    ∧ ("a.go", "helper", selfRecFi) ∉ unusedFunctionEntries selfRecState :=
  ⟨by decide, by decide, by decide, by decide, by decide,
    selfCallCountsAsUse selfRecState "a.go" "helper" selfRecFi
      (by decide) (by decide) (by decide) (by decide) (by decide)⟩

/-- The drain loop equals: keep the successful entries, concatenate their
result slices. -/
theorem drainResults_eq_flatten {ρ ε : Type} (l : List (AnalyzeResult ρ ε)) :
    drainResults l =
      (l.filterMap
        (fun r => if r.err.isSome then none else some r.results)).flatten := by
  suffices h : ∀ acc : List ρ,
      l.foldl (fun acc r => if r.err.isSome then acc else acc ++ r.results) acc =
        acc ++ (l.filterMap
          (fun r => if r.err.isSome then none else some r.results)).flatten by
    simpa [drainResults] using h []
  induction l with
  | nil => simp
  | cons r rest ih =>
    intro acc
    by_cases hr : r.err.isSome <;> simp [hr, ih, List.append_assoc]

/-- Claim C7: any two runs of `AnalyzeFiles` over the same path list — in
particular runs with 1, 2 and 8 workers, which differ only in the order the
per-file results reach the result channel — produce the same multiset of
results, and that multiset is the concatenation of the per-file results of
the files whose analysis succeeded (failed files contribute nothing). -/
theorem analyzeFilesRunPermInvariant {ρ ε : Type}
    (analyze : String → List ρ × Option ε)
    (paths arrival₁ arrival₂ : List String)
    (h₁ : arrival₁.Perm paths) (h₂ : arrival₂.Perm paths) :
    (analyzeFilesRun analyze arrival₁ : Multiset ρ)
        = (analyzeFilesRun analyze arrival₂ : Multiset ρ)
    ∧ (analyzeFilesRun analyze arrival₁ : Multiset ρ)
        = (((paths.map (runAnalyzer analyze)).filterMap
            (fun r => if r.err.isSome then none else some r.results)).flatten
            : List ρ) := by
  have key : ∀ arr : List String, arr.Perm paths →
      (analyzeFilesRun analyze arr).Perm
        (((paths.map (runAnalyzer analyze)).filterMap
          (fun r => if r.err.isSome then none else some r.results)).flatten) := by
    intro arr h
    rw [analyzeFilesRun, drainResults_eq_flatten]
    exact ((h.map (runAnalyzer analyze)).filterMap _).flatten
  constructor
  · exact Multiset.coe_eq_coe.mpr ((key _ h₁).trans (key _ h₂).symm)
  · exact Multiset.coe_eq_coe.mpr (key _ h₁)

/-- Witness for `analyzeFilesRunPermInvariant`: the two arrival orders of
`a` and `b` drain to the same multiset, the results of the successful file. -/
theorem analyzeFilesRunPermInvariantWitness :
    (["a", "b"].Perm ["a", "b"]) ∧ (["b", "a"].Perm ["a", "b"])
    ∧ (analyzeFilesRun witnessAnalyzer ["a", "b"] : Multiset Nat)
        = (analyzeFilesRun witnessAnalyzer ["b", "a"] : Multiset Nat) :=
  ⟨List.Perm.refl _, List.Perm.swap "a" "b" [],
    (analyzeFilesRunPermInvariant witnessAnalyzer ["a", "b"] ["a", "b"]
      ["b", "a"] (List.Perm.refl _) (List.Perm.swap "a" "b" [])).1⟩

theorem refs_mono_addFuncReference (st : AnalyzerState) (nm n : String)
    (h : n ∈ st.funcReferences) : n ∈ (addFuncReference st nm).funcReferences := by
  unfold addFuncReference
  split
  · exact h
  · exact List.mem_cons_of_mem nm h

theorem mem_addFuncReference_self (st : AnalyzerState) (nm : String) :
    nm ∈ (addFuncReference st nm).funcReferences := by
  unfold addFuncReference
  split
  · next hc => exact List.elem_iff.mp hc
  · exact List.mem_cons_self nm _

theorem refs_mono_recordArgReferences (n : String) :
    ∀ (st : AnalyzerState) (args : GoExprList), n ∈ st.funcReferences →
      n ∈ (recordArgReferences st args).funcReferences
  | _, .nil, h => h
  | st, .cons (.ident nm _) rest, h =>
    refs_mono_recordArgReferences n _ rest (refs_mono_addFuncReference st nm n h)
  | _, .cons (.selector _ _) rest, h => refs_mono_recordArgReferences n _ rest h
  | _, .cons (.call _ _) rest, h => refs_mono_recordArgReferences n _ rest h
  | _, .cons (.funcLit _) rest, h => refs_mono_recordArgReferences n _ rest h
  | _, .cons (.ifStmt _) rest, h => refs_mono_recordArgReferences n _ rest h
  | _, .cons (.forStmt _) rest, h => refs_mono_recordArgReferences n _ rest h
  | _, .cons (.rangeStmt _) rest, h => refs_mono_recordArgReferences n _ rest h
  | _, .cons (.switchStmt _) rest, h => refs_mono_recordArgReferences n _ rest h
  | _, .cons (.typeSwitchStmt _) rest, h => refs_mono_recordArgReferences n _ rest h
  | _, .cons (.selectStmt _) rest, h => refs_mono_recordArgReferences n _ rest h
  | _, .cons (.returnStmt _) rest, h => refs_mono_recordArgReferences n _ rest h
  | _, .cons (.branchStmt _) rest, h => refs_mono_recordArgReferences n _ rest h
  | _, .cons (.assignStmt _) rest, h => refs_mono_recordArgReferences n _ rest h
  | _, .cons (.binaryExpr _) rest, h => refs_mono_recordArgReferences n _ rest h
  | _, .cons (.unaryExpr _) rest, h => refs_mono_recordArgReferences n _ rest h
  | _, .cons .basicLit rest, h => refs_mono_recordArgReferences n _ rest h

mutual
theorem refsMonoExpr (fp cn n : String) :
    ∀ (st : AnalyzerState) (e : GoExpr), n ∈ st.funcReferences →
      n ∈ (collectCallsFromExpr fp cn st e).funcReferences
  | st, .call fn args, h =>
    refsMonoList fp cn n _ args
      (refsMonoExpr fp cn n _ fn (refsMonoRecord fp cn n st fn args h))
  | st, .ident nm b, h => by
    cases b
    · exact h
    · exact refs_mono_addFuncReference st nm n h
  | st, .selector x sel, h =>
    refsMonoExpr fp cn n _ x (refs_mono_addFuncReference st sel n h)
  | st, .funcLit b, h => refsMonoList fp cn n st b h
  | st, .ifStmt cs, h => refsMonoList fp cn n st cs h
  | st, .forStmt cs, h => refsMonoList fp cn n st cs h
  | st, .rangeStmt cs, h => refsMonoList fp cn n st cs h
  | st, .switchStmt cs, h => refsMonoList fp cn n st cs h
  | st, .typeSwitchStmt cs, h => refsMonoList fp cn n st cs h
  | st, .selectStmt cs, h => refsMonoList fp cn n st cs h
  | st, .returnStmt cs, h => refsMonoList fp cn n st cs h
  | st, .branchStmt cs, h => refsMonoList fp cn n st cs h
  | st, .assignStmt cs, h => refsMonoList fp cn n st cs h
  | st, .binaryExpr cs, h => refsMonoList fp cn n st cs h
  | st, .unaryExpr cs, h => refsMonoList fp cn n st cs h
  | _, .basicLit, h => h

theorem refsMonoRecord (fp cn n : String) :
    ∀ (st : AnalyzerState) (fn : GoExpr) (args : GoExprList),
      n ∈ st.funcReferences →
      n ∈ (recordCallExpr fp cn st fn args).funcReferences
  | _, .ident _ _, args, h => refs_mono_recordArgReferences n _ args h
  | _, .selector _ _, args, h => refs_mono_recordArgReferences n _ args h
  | st, .funcLit b, args, h =>
    refs_mono_recordArgReferences n _ args (refsMonoList fp cn n st b h)
  | _, .call _ _, args, h => refs_mono_recordArgReferences n _ args h
  | _, .ifStmt _, args, h => refs_mono_recordArgReferences n _ args h
  | _, .forStmt _, args, h => refs_mono_recordArgReferences n _ args h
  | _, .rangeStmt _, args, h => refs_mono_recordArgReferences n _ args h
  | _, .switchStmt _, args, h => refs_mono_recordArgReferences n _ args h
  | _, .typeSwitchStmt _, args, h => refs_mono_recordArgReferences n _ args h
  | _, .selectStmt _, args, h => refs_mono_recordArgReferences n _ args h
  | _, .returnStmt _, args, h => refs_mono_recordArgReferences n _ args h
  | _, .branchStmt _, args, h => refs_mono_recordArgReferences n _ args h
  | _, .assignStmt _, args, h => refs_mono_recordArgReferences n _ args h
  | _, .binaryExpr _, args, h => refs_mono_recordArgReferences n _ args h
  | _, .unaryExpr _, args, h => refs_mono_recordArgReferences n _ args h
  | _, .basicLit, args, h => refs_mono_recordArgReferences n _ args h

theorem refsMonoList (fp cn n : String) :
    ∀ (st : AnalyzerState) (es : GoExprList), n ∈ st.funcReferences →
      n ∈ (collectCallsFromList fp cn st es).funcReferences
  | _, .nil, h => h
  | st, .cons e es, h =>
    refsMonoList fp cn n _ es (refsMonoExpr fp cn n st e h)
end

mutual
theorem refsCoverExpr (fp cn n : String) :
    ∀ (st : AnalyzerState) (e : GoExpr), n ∈ exprRefSources e →
      n ∈ (collectCallsFromExpr fp cn st e).funcReferences
  | st, .ident nm b, h => by
    cases b
    · exact absurd h (List.not_mem_nil n)
    · have hn : n = nm := List.mem_singleton.mp h
      subst hn
      exact mem_addFuncReference_self st n
  | st, .selector x sel, h => by
    rcases List.mem_cons.mp h with h | h
    · subst h
      exact refsMonoExpr fp cn n _ x (mem_addFuncReference_self st n)
    · exact refsCoverExpr fp cn n _ x h
  | st, .call fn args, h => by
    rcases List.mem_append.mp h with h | h
    · exact refsMonoList fp cn n _ args
        (refsCoverExpr fp cn n (recordCallExpr fp cn st fn args) fn h)
    · exact refsCoverList fp cn n _ args h
  | st, .funcLit b, h => refsCoverList fp cn n st b h
  | st, .ifStmt cs, h => refsCoverList fp cn n st cs h
  | st, .forStmt cs, h => refsCoverList fp cn n st cs h
  | st, .rangeStmt cs, h => refsCoverList fp cn n st cs h
  | st, .switchStmt cs, h => refsCoverList fp cn n st cs h
  | st, .typeSwitchStmt cs, h => refsCoverList fp cn n st cs h
  | st, .selectStmt cs, h => refsCoverList fp cn n st cs h
  | st, .returnStmt cs, h => refsCoverList fp cn n st cs h
  | st, .branchStmt cs, h => refsCoverList fp cn n st cs h
  | st, .assignStmt cs, h => refsCoverList fp cn n st cs h
  | st, .binaryExpr cs, h => refsCoverList fp cn n st cs h
  | st, .unaryExpr cs, h => refsCoverList fp cn n st cs h
  | _, .basicLit, h => absurd h (List.not_mem_nil n)

theorem refsCoverList (fp cn n : String) :
    ∀ (st : AnalyzerState) (es : GoExprList), n ∈ exprListRefSources es →
      n ∈ (collectCallsFromList fp cn st es).funcReferences
  | _, .nil, h => absurd h (List.not_mem_nil n)
  | st, .cons e es, h => by
    rcases List.mem_append.mp h with h | h
    · exact refsMonoList fp cn n _ es (refsCoverExpr fp cn n st e h)
    · exact refsCoverList fp cn n _ es h
end

/-- Claim C3 (amended): the body traversal of the Fact Collector adds names
to the `funcReferences` set regardless of call position — the trailing name
of every selector (including the target of a selector call `x.Y()`) and the
name of every identifier carrying a function object (including the target
of a direct call `f()`), since `ast.Inspect` descends into the `Fun` child
of each `CallExpr` and the visitor has no call-position exclusion. -/
theorem refSourcesAlwaysRecorded (filePath callerName : String)
    (st : AnalyzerState) (body : GoExprList) (n : String)
    (h : n ∈ exprListRefSources body) :
    n ∈ (collectCallsFromList filePath callerName st body).funcReferences :=
  refsCoverList filePath callerName n st body h

/-- Claim C3, counterexample to the original statement: in a file whose only
occurrence of `Y` is as the call target of the selector call `x.Y()`, the
name `Y` nonetheless ends up in the `funcReferences` set. -/
theorem selectorCallTargetIsReferenced :
    "Y" ∈ selectorCallState.funcReferences := by decide

/-- Witness for `refSourcesAlwaysRecorded`: the body `x.Y()` has `Y` as a
reference source and the traversal records it. -/
theorem refSourcesAlwaysRecordedWitness :
    "Y" ∈ exprListRefSources
        (.cons (.call (.selector (.ident "x" false) "Y") .nil) .nil)
    ∧ "Y" ∈ (collectCallsFromList "b.go" "g" emptyAnalyzerState
        (.cons (.call (.selector (.ident "x" false) "Y") .nil) .nil)).funcReferences :=
  ⟨by decide,
    refSourcesAlwaysRecorded "b.go" "g" emptyAnalyzerState
      (.cons (.call (.selector (.ident "x" false) "Y") .nil) .nil) "Y" (by decide)⟩

end AgentLint
